import Mathlib

/-!
Verification development for the mcp-graphql schema-to-tool translation engine.

The definitions below are a shallow embedding of the TypeScript source of
the repository:

* `convertToZodSchema`, `argumentToZodSchema`, `buildZodSchemaFromVariables`,
  `operationToTool`, `getOperations`, `loadTools`, `createOperationDescription`,
  `getOperationOutputType`, `printType` embed `src/unnamed/part_001`
  (the current `lib/graphql.ts`: schema parsing and transformation logic).
* `namedTypeToZodSchema` embeds the scalar table of `src/src/lib/graphql.ts`.
* `queryGraphqlHandler` embeds the `query-graphql` tool handler of
  `src/src/index.ts` (parse check, mutation gate, dispatch classification).
* `loadSchemaFromIntrospection` / `loadSchemaFromFile` embed the schema-source
  functions of `src/unnamed/part_001`, with the external `graphql` library
  functions (`buildClientSchema`, `printSchema`, `buildSchema`) passed in as
  explicit function arguments and the file system as explicit state.

The TypeScript recursion of `convertToZodSchema` is not structurally
terminating (see the theorems about it), so the embedding threads an explicit
`fuel` argument modelling the call stack: a result of `none` means the source
function would still be recursing after `fuel` nested calls, i.e. for every
fuel the call diverges.
-/

/-- The zod validation-schema values produced by the mapper.
`z.number().int()` is `int`, `z.number()` is `float`, `.optional()` wraps with
`optional`, `.default(v)` wraps with `withDefault`. -/
inductive ZodSchema where
  | string : ZodSchema
  | int : ZodSchema
  | float : ZodSchema
  | boolean : ZodSchema
  | anyType : ZodSchema
  | array : ZodSchema → ZodSchema
  | object : List (String × ZodSchema) → ZodSchema
  | optional : ZodSchema → ZodSchema
  | withDefault : ZodSchema → String → ZodSchema

/-- The zod `.default(value)` method: returns a new schema wrapping the receiver;
the receiver itself is unchanged (zod schemas are immutable). -/
def ZodSchema.default (s : ZodSchema) (value : String) : ZodSchema :=
  ZodSchema.withDefault s value

/-- Whether the root of a schema node is marked `.optional()`. -/
def ZodSchema.isOptional : ZodSchema → Bool
  | .optional _ => true
  | _ => false

/-- GraphQL input types as seen by `convertToZodSchema`: non-null wrappers,
list wrappers, scalars, input object types (whose fields live in the schema
environment, since the in-memory graphql-js type graph may be cyclic), and
enums (which fall through to the final `z.any()` branch of the source). -/
inductive GqlInputType where
  | nonNull : GqlInputType → GqlInputType
  | list : GqlInputType → GqlInputType
  | scalar : String → GqlInputType
  | inputObject : String → GqlInputType
  | enum : String → GqlInputType
deriving DecidableEq, Repr

/-- A field of an input object type (`type.getFields()` entries). -/
structure InputField where
  name : String
  type : GqlInputType
deriving DecidableEq, Repr

/-- The input-object side of a schema: field lists by input object type name
(graphql-js `type.getFields()`; every input object type has a field list). -/
abbrev InputEnv : Type := String → List InputField

/-- `type instanceof GraphQLNonNull`. -/
def GqlInputType.isNonNull : GqlInputType → Bool
  | .nonNull _ => true
  | _ => false

/-- graphql-js `type.toString()` for input types. -/
def GqlInputType.render : GqlInputType → String
  | .nonNull t => GqlInputType.render t ++ "!"
  | .list t => "[" ++ GqlInputType.render t ++ "]"
  | .scalar n => n
  | .inputObject n => n
  | .enum n => n

/-- Embedding of `convertToZodSchema` (src/unnamed/part_001, lines 192-234).
`fuel` models the call stack (one unit per nested call); `maxDepth` is the
the parameter of the source, whose default value 3 is supplied at every call site that
omits it — in particular the recursive calls of the non-null and list branches
pass no `maxDepth`, so those branches restart the budget at 3. -/
def convertToZodSchema (env : InputEnv) : Nat → GqlInputType → Nat → Option ZodSchema
  | 0, _, _ => none
  | fuel + 1, t, maxDepth =>
    if maxDepth = 0 then
      -- Fall back to any type when the recursion limit is reached
      some ZodSchema.anyType
    else
      match t with
      | .nonNull inner =>
        -- Non-null type, need to go deeper: `convertToZodSchema(type.ofType)`
        -- (no second argument, so maxDepth restarts at its default 3)
        convertToZodSchema env fuel inner 3
      | .list inner =>
        -- `z.array(convertToZodSchema(type.ofType))` (again the default 3)
        (convertToZodSchema env fuel inner 3).map ZodSchema.array
      | .scalar name =>
        if name = "String" ∨ name = "ID" then some ZodSchema.string
        else if name = "Int" then some ZodSchema.int
        else if name = "Float" then some ZodSchema.float
        else if name = "Boolean" then some ZodSchema.boolean
        else
          -- Fall back to string for custom scalars
          some ZodSchema.string
      | .inputObject name =>
        ((env name).mapM (fun (field : InputField) =>
          (if field.type.isNonNull then
            convertToZodSchema env fuel field.type (maxDepth - 1)
          else
            (convertToZodSchema env fuel field.type (maxDepth - 1)).map
              ZodSchema.optional).map
            (fun s => (field.name, s)))).map
          (fun shape => ZodSchema.optional (ZodSchema.object shape))
      | .enum _ =>
        -- Fall back to any type for the remaining input type kinds
        some ZodSchema.anyType

/-- A GraphQL argument (graphql-js `GraphQLArgument`): name, description,
input type, and optional declared default value (default literals are kept
abstract as strings). -/
structure GqlArgument where
  name : String
  description : Option String
  type : GqlInputType
  defaultValue : Option String
deriving DecidableEq, Repr

/-- Embedding of `argumentToZodSchema` (src/unnamed/part_001, lines 190-244).
The source computes `zodField.default(argument.defaultValue)` but discards the
returned schema (the zod `.default` does not mutate the receiver), which the
`let` binding below reproduces. -/
def argumentToZodSchema (env : InputEnv) (fuel : Nat) (argument : GqlArgument) :
    Option ZodSchema :=
  match convertToZodSchema env fuel argument.type 3 with
  | none => none
  | some zodField =>
    match argument.defaultValue with
    | some dv =>
      let _discarded := zodField.default dv
      some zodField
    | none => some zodField

/-- Embedding of `buildZodSchemaFromVariables` (src/unnamed/part_001,
lines 175-188): one entry per argument, wrapped in the
`{ variables, query }` calling convention. -/
def buildZodSchemaFromVariables (env : InputEnv) (fuel : Nat)
    (variableDefinitions : List GqlArgument) : Option ZodSchema :=
  (variableDefinitions.mapM (fun definition =>
    (argumentToZodSchema env fuel definition).map
      (fun s => (definition.name, s)))).map
    (fun schemaObj =>
      ZodSchema.object
        [("variables", ZodSchema.object schemaObj), ("query", ZodSchema.string)])

/-- Embedding of `namedTypeToZodSchema` (src/src/lib/graphql.ts,
lines 197-214): the scalar-name table of the older variant. -/
def namedTypeToZodSchema (typeName : String) : ZodSchema :=
  if typeName = "String" then ZodSchema.string
  else if typeName = "Int" then ZodSchema.int
  else if typeName = "Float" then ZodSchema.float
  else if typeName = "Boolean" then ZodSchema.boolean
  else if typeName = "ID" then ZodSchema.string
  else
    -- fallback to string for custom scalars
    ZodSchema.string

/-- Modelled from the spec: the scalar mapping table as the spec states it
(String→String, Int→Int, Float→Float, Boolean→Boolean, ID→String, any
unrecognized scalar name→String), to be compared with the source mappers. -/
def specScalarNode (name : String) : ZodSchema :=
  if name = "String" then ZodSchema.string
  else if name = "Int" then ZodSchema.int
  else if name = "Float" then ZodSchema.float
  else if name = "Boolean" then ZodSchema.boolean
  else if name = "ID" then ZodSchema.string
  else ZodSchema.string

/-- Strip all non-null wrappers from an input type. -/
def GqlInputType.unwrapNonNull : GqlInputType → GqlInputType
  | .nonNull t => GqlInputType.unwrapNonNull t
  | t => t

/-- Whether a type is an input object type (`isInputObjectType`). -/
def GqlInputType.isInputObjectType : GqlInputType → Bool
  | .inputObject _ => true
  | _ => false

/-- GraphQL output types as traversed by `printType` (src/unnamed/part_001):
wrappers, scalars, enums, and object types whose fields live in the schema
environment (the in-memory type graph may be cyclic). -/
inductive GqlOutputType where
  | nonNull : GqlOutputType → GqlOutputType
  | list : GqlOutputType → GqlOutputType
  | scalar : String → GqlOutputType
  | enum : String → GqlOutputType
  | object : String → GqlOutputType
deriving DecidableEq, Repr

/-- Output-object fieldlists by type name (graphql-js `type.getFields()`). -/
abbrev OutputEnv : Type := String → List (String × GqlOutputType)

/-- One level of `printType` (src/unnamed/part_001, lines 352-398): handles
list/non-null wrappers and named types at a fixed `maxDepth`, delegating the
object-field recursion (which decrements `maxDepth`) to `deeper`. -/
def printTypeGo (env : OutputEnv) (deeper : GqlOutputType → String)
    (maxDepth : Nat) : GqlOutputType → String
  | .list t => "[" ++ printTypeGo env deeper maxDepth t ++ "]"
  | .nonNull t => printTypeGo env deeper maxDepth t ++ "!"
  | .scalar name => name
  | .enum name => "ENUM " ++ name
  | .object name =>
    let fields := env name
    if maxDepth - 1 = 0 then
      -- Return the type name if we are at the max depth already
      name
    else
      let fieldStrings := fields.map (fun f => "  " ++ f.1 ++ ": " ++ deeper f.2)
      "\x7b\n" ++ String.intercalate "\n" fieldStrings ++ "\n\x7d"

/-- Embedding of `printType` (src/unnamed/part_001, lines 352-398). The
recursion of the source keeps `maxDepth` across list/non-null wrappers and
decrements it when entering the fields of an object; checking the depth at
entry makes the two layers here equivalent to the single function of the
source. -/
def printType (env : OutputEnv) : Nat → GqlOutputType → String
  | 0, _ => "..."
  | maxDepth + 1, t => printTypeGo env (printType env maxDepth) (maxDepth + 1) t

/-- Operation kind: the `"query" | "mutation"` string union of the source. -/
inductive OpKind where
  | query : OpKind
  | mutation : OpKind
deriving DecidableEq, Repr

/-- The literal string the source uses for an operation kind. -/
def OpKind.render : OpKind → String
  | .query => "query"
  | .mutation => "mutation"

/-- A field of the root Query or Mutation type: name, doc string, argument
list and output type (graphql-js field object). -/
structure GqlField where
  name : String
  description : Option String
  args : List GqlArgument
  type : GqlOutputType
deriving DecidableEq, Repr

/-- The resolved GraphQL schema: the two root field lists (an absent root
type contributes the empty list, matching `queryFields || {}`), plus the
field environments backing input object and output object types. -/
structure GraphQLSchema where
  queryFields : List GqlField
  mutationFields : List GqlField
  inputTypes : InputEnv
  outputTypes : OutputEnv

/-- The `Operation` record of src/unnamed/part_001 (lines 70-75). -/
structure Operation where
  name : String
  type : OpKind
  description : Option String
  parameters : List GqlArgument

/-- JavaScript `a || b` on an optional string (empty strings are falsy). -/
def jsOrElse (s : Option String) (dflt : String) : String :=
  match s with
  | some v => if v = "" then dflt else v
  | none => dflt

/-- Embedding of `getOperationOutputType` (src/unnamed/part_001,
lines 312-343): look the operation up in its root type and print its output
type with the default depth 5. -/
def getOperationOutputType (schema : GraphQLSchema) (operation : Operation) :
    String :=
  let outputType :=
    match operation.type with
    | .query =>
      (schema.queryFields.find? (fun f => f.name = operation.name)).map
        (fun f => f.type)
    | .mutation =>
      (schema.mutationFields.find? (fun f => f.name = operation.name)).map
        (fun f => f.type)
  match outputType with
  | none => "Unknown output type"
  | some t => printType schema.outputTypes 5 t

/-- Embedding of `createOperationDescription` (src/unnamed/part_001,
lines 400-429): the template literal rendered with explicit concatenation. -/
def createOperationDescription (schema : GraphQLSchema)
    (operation : Operation) : String :=
  let outputTypeInfo := getOperationOutputType schema operation
  "\n  " ++ operation.type.render ++ " operation: \"" ++ operation.name ++
    "\"\n\nDESCRIPTION:\n" ++
    jsOrElse operation.description "No description available" ++
    "\n\nPARAMETERS:\n" ++
    (if operation.parameters.length > 0 then
      String.intercalate "\n"
        (operation.parameters.map (fun param =>
          "- " ++ param.name ++ ": " ++ param.type.render ++
            (match param.description with
             | some d => if d = "" then "" else " - " ++ d
             | none => "")))
    else
      "No parameters required") ++
    "\n\nOUTPUT TYPE:\n" ++ outputTypeInfo ++
    "\n\nWhen you use this operation, you\x27ll receive a response with this structure."

/-- Embedding of `getOperations` (src/unnamed/part_001, lines 82-128): one
operation per root field of each allowed kind, in field declaration order,
with the enriched description. -/
def getOperations (schema : GraphQLSchema)
    (allowedOperations : List OpKind) : List Operation :=
  (if allowedOperations.contains OpKind.query then
    schema.queryFields.map (fun field =>
      { name := field.name
        type := OpKind.query
        description := some (createOperationDescription schema
          { name := field.name
            type := OpKind.query
            description := field.description
            parameters := field.args })
        parameters := field.args })
  else []) ++
  (if allowedOperations.contains OpKind.mutation then
    schema.mutationFields.map (fun field =>
      { name := field.name
        type := OpKind.mutation
        description := some (createOperationDescription schema
          { name := field.name
            type := OpKind.mutation
            description := field.description
            parameters := field.args })
        parameters := field.args })
  else [])

/-- The `Tool` record of src/unnamed/part_001 (lines 130-135). The
`inputSchema` field of the source is `zodToJsonSchema(parameters)`, a
projection computed by the external zod-to-json-schema library from the
`parameters` field, and is not modelled separately. -/
structure Tool where
  name : String
  description : String
  parameters : ZodSchema

/-- Embedding of `operationToTool` (src/unnamed/part_001, lines 142-168).
`none` covers both the "Operation name is required" throw (unreachable from
`loadTools`, which skips unnamed operations) and conversion running out of
fuel. -/
def operationToTool (env : InputEnv) (fuel : Nat) (operation : Operation) :
    Option Tool :=
  if operation.name = "" then none
  else
    (buildZodSchemaFromVariables env fuel operation.parameters).map
      (fun paramSchema =>
        { name := operation.type.render ++ "-" ++ operation.name
          description := jsOrElse operation.description ""
          parameters := paramSchema })

/-- The registry: a JavaScript `Map` from tool name to tool, as an ordered
association list. -/
abbrev ToolMap : Type := List (String × Tool)

/-- JavaScript `Map.prototype.set` (also the overwrite semantics of
`fs.writeFile`): overwrite in place when the key exists (keeping its original
insertion position), append otherwise. -/
def mapSet {A : Type} (m : List (String × A)) (k : String) (v : A) :
    List (String × A) :=
  if m.any (fun p => p.1 = k) then
    m.map (fun p => if p.1 = k then (k, v) else p)
  else
    m ++ [(k, v)]

/-- JavaScript `Map.prototype.get` (also `fs.readFile`). -/
def mapGet {A : Type} (m : List (String × A)) (k : String) : Option A :=
  (m.find? (fun p => p.1 = k)).map (fun p => p.2)

/-- The `Config` record (src/src/lib/config.ts). -/
structure Config where
  name : String
  endpoint : String
  schemaPath : Option String
  headers : List (String × String)
  allowMutations : Bool
  excludeQueries : List String
  excludeMutations : List String

/-- The loop body sequence of `loadTools`: fold the operations over the
current map, skipping an operation when its name is empty or appears in
either exclusion list, otherwise synthesizing its tool and `set`ting it. -/
def addTools (env : InputEnv) (fuel : Nat) (config : Config)
    (operations : List Operation) (tools : ToolMap) : Option ToolMap :=
  operations.foldlM (fun acc operation =>
    if operation.name = "" ∨ config.excludeQueries.contains operation.name ∨
        config.excludeMutations.contains operation.name then
      -- Operation not found or excluded
      some acc
    else
      (operationToTool env fuel operation).map
        (fun tool => mapSet acc tool.name tool)) tools

/-- The same fold without the exclusion check, used to state what the
exclusion policy filters out. -/
def addAllTools (env : InputEnv) (fuel : Nat)
    (operations : List Operation) (tools : ToolMap) : Option ToolMap :=
  operations.foldlM (fun acc operation =>
    (operationToTool env fuel operation).map
      (fun tool => mapSet acc tool.name tool)) tools

/-- Embedding of `loadTools` (src/unnamed/part_001, lines 258-280; the same
logic appears in src/src/lib/graphql.ts, lines 228-250). The persistent
`tools` map of the handler is threaded explicitly: the source mutates the map
created once by `createGraphQLHandler`, so a reload receives the previous
map as its starting state. -/
def loadTools (fuel : Nat) (config : Config) (schema : GraphQLSchema)
    (tools : ToolMap) : Option ToolMap :=
  let operations := getOperations schema
    (if config.allowMutations then [OpKind.query, OpKind.mutation]
     else [OpKind.query])
  addTools schema.inputTypes fuel config operations tools

/-- Operation kinds of a parsed GraphQL document (`OperationDefinitionNode`). -/
inductive AstOperation where
  | query : AstOperation
  | mutation : AstOperation
  | subscription : AstOperation
deriving DecidableEq, Repr

/-- A definition of a parsed GraphQL document: an operation definition with
its kind, or any other definition kind (fragments etc.). -/
inductive AstDefinition where
  | operationDefinition : AstOperation → AstDefinition
  | otherDefinition : AstDefinition
deriving DecidableEq, Repr

/-- A parsed GraphQL document (the result of the external `parse`). -/
structure ParsedDocument where
  definitions : List AstDefinition
deriving DecidableEq, Repr

/-- `def.kind === "OperationDefinition" && def.operation === "mutation"`. -/
def AstDefinition.isMutationDef : AstDefinition → Bool
  | .operationDefinition .mutation => true
  | _ => false

/-- The parsed JSON body of a GraphQL execution response: the `errors` key
(absent, or an array whose elements are kept abstract as strings) and the rest
of the payload, kept abstract as a string. -/
structure GraphQLJsonBody where
  errors : Option (List String)
  payload : String
deriving DecidableEq, Repr

/-- `data.errors && data.errors.length > 0` for a GraphQL response body. -/
def GraphQLJsonBody.hasNonemptyErrors (data : GraphQLJsonBody) : Bool :=
  match data.errors with
  | some es => !es.isEmpty
  | none => false

/-- A resolved `fetch` response as consumed by the handler: the `ok` flag,
`statusText`, the body as text (`response.text()`), and the body as JSON
(`response.json()`), which is `none` when the body is not valid JSON (the
`await response.json()` of the source then rejects). -/
structure FetchResponse where
  ok : Bool
  statusText : String
  bodyText : String
  bodyJson : Option GraphQLJsonBody
deriving DecidableEq, Repr

/-- The possible results of the `query-graphql` handler of src/src/index.ts.
`syntaxError`, `mutationsDisabled`, `transportError` and `graphqlError` are
the structured `isError` results; `success` is the ordinary result carrying
the parsed body verbatim; `thrown` is an exception escaping the handler
(`throw new Error(..)` in the final catch). The MCP text rendering
(`JSON.stringify`) of each result is presentation and is not modelled. -/
inductive HandlerResult where
  | syntaxError : String → HandlerResult
  | mutationsDisabled : HandlerResult
  | transportError : String → String → HandlerResult
  | graphqlError : GraphQLJsonBody → HandlerResult
  | success : GraphQLJsonBody → HandlerResult
  | thrown : HandlerResult
deriving DecidableEq, Repr

/-- The dispatch phase of the handler (src/src/index.ts, lines 149-206):
classify the fetched response. A non-2xx status is a transport error; a 2xx
response whose JSON body has a non-empty `errors` array is a GraphQL response
error; a 2xx response with `errors` empty or absent is a success carrying the
body; a 2xx response whose body fails JSON parsing makes `response.json()`
reject, and the surrounding catch rethrows. -/
def dispatchClassify (response : FetchResponse) : HandlerResult :=
  if !response.ok then
    HandlerResult.transportError response.statusText response.bodyText
  else
    match response.bodyJson with
    | none => HandlerResult.thrown
    | some data =>
      if data.hasNonemptyErrors then HandlerResult.graphqlError data
      else HandlerResult.success data

/-- Embedding of the `query-graphql` tool handler (src/src/index.ts,
lines 109-207). The external `parse` of the query text is represented by its
result: `.error` when the text does not parse (the catch returns the
Invalid-GraphQL-query result), `.ok` with the parsed document otherwise. A
parsed document containing a mutation-kind operation definition is rejected
when mutations are not allowed; only then is the request dispatched and the
response classified. -/
def queryGraphqlHandler (allowMutations : Bool)
    (parseResult : Except String ParsedDocument)
    (response : FetchResponse) : HandlerResult :=
  match parseResult with
  | .error e => HandlerResult.syntaxError e
  | .ok parsedQuery =>
    let isMutation := parsedQuery.definitions.any AstDefinition.isMutationDef
    if isMutation && !allowMutations then
      HandlerResult.mutationsDisabled
    else
      dispatchClassify response

/-- The file system visible to the schema-source functions: contents by path,
written with overwrite semantics. -/
abbrev FileSystem : Type := List (String × String)

/-- `fs.writeFile(path, contents)`: create or overwrite. -/
def writeFile (fs : FileSystem) (path contents : String) : FileSystem :=
  mapSet fs path contents

/-- `fs.readFile(path)`. -/
def readFile (fs : FileSystem) (path : String) : Option String :=
  mapGet fs path

/-- The introspection response consumed by `loadSchemaFromIntrospection`:
the HTTP `ok` flag and status text, and the `errors` value of the parsed
JSON body and its `data` value, the latter carrying `__schema` (the introspection
payload, abstract at type `D`) when present. -/
structure IntrospectionResponse (D : Type) where
  ok : Bool
  statusText : String
  errors : Option (List String)
  dataSchema : Option D

/-- Embedding of `loadSchemaFromIntrospection` (src/unnamed/part_001,
lines 23-62). The external graphql library functions are passed in:
`buildClientSchema` reconstructs a schema from the introspection payload and
`printSchema` renders its SDL. On the success path the source awaits
`writeFile("schema.graphql", sdl)` before returning the schema. -/
def loadSchemaFromIntrospection {D : Type}
    (buildClientSchema : D → GraphQLSchema)
    (printSchema : GraphQLSchema → String)
    (response : IntrospectionResponse D) (fs : FileSystem) :
    Except String (GraphQLSchema × FileSystem) :=
  if !response.ok then
    Except.error ("Failed to fetch GraphQL schema: " ++ response.statusText)
  else if response.errors.isSome then
    Except.error "Failed to fetch GraphQL schema: (errors array)"
  else
    match response.dataSchema with
    | none => Except.error "Invalid schema found"
    | some introspection =>
      let schemaObj := buildClientSchema introspection
      let sdl := printSchema schemaObj
      Except.ok (schemaObj, writeFile fs "schema.graphql" sdl)

/-- Embedding of `loadSchemaFromFile` (src/unnamed/part_001, lines 64-68):
read the file and parse it with the external `buildSchema`; the file system
is only read. -/
def loadSchemaFromFile (buildSchema : String → GraphQLSchema) (path : String)
    (fs : FileSystem) : Except String (GraphQLSchema × FileSystem) :=
  match readFile fs path with
  | none => Except.error "ENOENT"
  | some data => Except.ok (buildSchema data, fs)

/-! ### Concrete instances used by witnesses and counterexamples -/

/-- A schema environment with a single self-referential input object type:
`input A { a: A! }` — the self-reference goes through a non-null wrapper,
which is legal GraphQL. -/
def envRecA : InputEnv := fun n =>
  if n = "A" then
    [{ name := "a", type := GqlInputType.nonNull (GqlInputType.inputObject "A") }]
  else []

/-- The argument `data: A!` against `envRecA`. -/
def argRecA : GqlArgument :=
  { name := "data", description := none
    type := GqlInputType.nonNull (GqlInputType.inputObject "A")
    defaultValue := none }

/-- A schema environment with `input B { flag: Boolean }`. -/
def envB : InputEnv := fun n =>
  if n = "B" then [{ name := "flag", type := GqlInputType.scalar "Boolean" }]
  else []

/-- The argument `input: B!` against `envB`. -/
def argB : GqlArgument :=
  { name := "input", description := none
    type := GqlInputType.nonNull (GqlInputType.inputObject "B")
    defaultValue := none }

/-- An argument `limit: Int = 10`, carrying a declared default value. -/
def argLimit : GqlArgument :=
  { name := "limit", description := none
    type := GqlInputType.scalar "Int", defaultValue := some "10" }

/-- The empty input/output environments (no named types needed). -/
def emptyInputEnv : InputEnv := fun _ => []

/-- A schema whose name `"X"` is both a query field and a mutation field. -/
def schemaXX : GraphQLSchema :=
  { queryFields :=
      [{ name := "X", description := some "the X query", args := []
         type := GqlOutputType.scalar "String" }]
    mutationFields :=
      [{ name := "X", description := none, args := []
         type := GqlOutputType.scalar "Boolean" }]
    inputTypes := emptyInputEnv
    outputTypes := fun _ => [] }

/-- The config of the kind-scoped exclusion test: mutations allowed,
`excludeQueries = ["X"]`, `excludeMutations = []`. -/
def cfgXX : Config :=
  { name := "mcp-graphql", endpoint := "http://localhost:4000/graphql"
    schemaPath := none, headers := [], allowMutations := true
    excludeQueries := ["X"], excludeMutations := [] }

/-- A config with no exclusions and mutations disallowed. -/
def cfgPlain : Config :=
  { name := "mcp-graphql", endpoint := "http://localhost:4000/graphql"
    schemaPath := none, headers := [], allowMutations := false
    excludeQueries := [], excludeMutations := [] }

/-- A schema with the single query field `old`. -/
def schemaOld : GraphQLSchema :=
  { queryFields :=
      [{ name := "old", description := none, args := []
         type := GqlOutputType.scalar "String" }]
    mutationFields := [], inputTypes := emptyInputEnv, outputTypes := fun _ => [] }

/-- A schema with the single query field `user` (no field `old`). -/
def schemaNew : GraphQLSchema :=
  { queryFields :=
      [{ name := "user", description := none
         args := [{ name := "id", description := none
                    type := GqlInputType.nonNull (GqlInputType.scalar "ID")
                    defaultValue := none }]
         type := GqlOutputType.scalar "String" }]
    mutationFields := [], inputTypes := emptyInputEnv, outputTypes := fun _ => [] }

/-- A schema with no fields at all. -/
def schemaEmpty : GraphQLSchema :=
  { queryFields := [], mutationFields := []
    inputTypes := emptyInputEnv, outputTypes := fun _ => [] }

/-- A parsed document holding exactly one mutation operation definition. -/
def docMutation : ParsedDocument :=
  { definitions := [AstDefinition.operationDefinition AstOperation.mutation] }

/-- An arbitrary successful response (used where the result may not depend on
the response at all). -/
def respOk : FetchResponse :=
  { ok := true, statusText := "OK", bodyText := "", bodyJson := none }

/-- A 2xx response whose body is not valid JSON: `response.json()` rejects. -/
def respBadJson : FetchResponse :=
  { ok := true, statusText := "OK", bodyText := "<html>oops</html>"
    bodyJson := none }

/-- A 2xx response with a non-empty `errors` array in the body. -/
def respWithErrors : FetchResponse :=
  { ok := true, statusText := "OK", bodyText := "..."
    bodyJson := some { errors := some ["Cannot query field"], payload := "p" } }

/-- A non-2xx response. -/
def respHttp500 : FetchResponse :=
  { ok := false, statusText := "Internal Server Error", bodyText := "boom"
    bodyJson := none }

/-- A stale registry entry standing for a tool from a previous build. -/
def toolOld : Tool :=
  { name := "query-old", description := "", parameters := ZodSchema.anyType }

/-- Concrete stand-ins for the external graphql library functions used by the
schema-source witnesses. -/
def introBuild0 : Unit → GraphQLSchema := fun _ => schemaEmpty

/-- Concrete stand-in for `printSchema`. -/
def introPrint0 : GraphQLSchema → String := fun _ => "type Query"

/-- A successful introspection response (payload abstracted to `Unit`). -/
def introResp0 : IntrospectionResponse Unit :=
  { ok := true, statusText := "OK", errors := none, dataSchema := some () }

/-! ### Lemmas about the map/file-system helpers -/

theorem mapGet_cons {A : Type} (a : String × A) (m : List (String × A))
    (j : String) :
    mapGet (a :: m) j = if a.1 = j then some a.2 else mapGet m j := by
  by_cases h : a.1 = j <;> simp [mapGet, List.find?_cons, h]

theorem mapGet_map_ne {A : Type} (m : List (String × A)) (k : String) (v : A)
    (j : String) (hjk : j ≠ k) :
    mapGet (m.map (fun p => if p.1 = k then (k, v) else p)) j = mapGet m j := by
  induction m with
  | nil => rfl
  | cons a m ih =>
    rw [List.map_cons, mapGet_cons, mapGet_cons]
    by_cases hak : a.1 = k
    · have hkj : ¬ (k = j) := fun h => hjk h.symm
      have haj : ¬ (a.1 = j) := by rw [hak]; exact hkj
      rw [if_pos hak]
      simp only [if_neg hkj, if_neg haj]
      exact ih
    · rw [if_neg hak]
      by_cases haj : a.1 = j
      · simp [haj]
      · simp only [if_neg haj]
        exact ih

theorem mapGet_map_overwrite {A : Type} (m : List (String × A)) (k : String)
    (v : A) (j : String) (hmem : m.any (fun p => p.1 = k) = true) :
    mapGet (m.map (fun p => if p.1 = k then (k, v) else p)) j =
      if j = k then some v else mapGet m j := by
  induction m with
  | nil => simp at hmem
  | cons a m ih =>
    rw [List.map_cons, mapGet_cons, mapGet_cons]
    by_cases hak : a.1 = k
    · rw [if_pos hak]
      by_cases hjk : j = k
      · subst hjk; simp
      · have hkj : ¬ (k = j) := fun h => hjk h.symm
        have haj : ¬ (a.1 = j) := by rw [hak]; exact hkj
        simp only [if_neg hkj, if_neg hjk, if_neg haj]
        exact mapGet_map_ne m k v j hjk
    · rw [if_neg hak]
      have hmem' : m.any (fun p => p.1 = k) = true := by
        rw [List.any_cons] at hmem
        simpa [hak] using hmem
      by_cases haj : a.1 = j
      · have hjk : ¬ (j = k) := fun h => hak (haj ▸ h ▸ rfl)
        simp [haj, hjk]
      · simp only [if_neg haj]
        exact ih hmem'

theorem mapGet_append_single {A : Type} (m : List (String × A)) (k : String)
    (v : A) (j : String) (hmem : m.any (fun p => p.1 = k) = false) :
    mapGet (m ++ [(k, v)]) j = if j = k then some v else mapGet m j := by
  induction m with
  | nil =>
    by_cases h : j = k
    · subst h; simp [mapGet_cons]
    · have hkj : ¬ (k = j) := fun hh => h hh.symm
      simp [mapGet_cons, h, hkj, mapGet]
  | cons a m ih =>
    rw [List.any_cons] at hmem
    have hak : ¬ (a.1 = k) := by
      intro h
      simp [h] at hmem
    have hmem' : m.any (fun p => p.1 = k) = false := by
      simpa [hak] using hmem
    rw [List.cons_append, mapGet_cons, mapGet_cons]
    by_cases haj : a.1 = j
    · have hjk : ¬ (j = k) := fun h => hak (haj ▸ h ▸ rfl)
      simp [haj, hjk]
    · simp only [if_neg haj]
      exact ih hmem'

theorem mapGet_mapSet {A : Type} (m : List (String × A)) (k : String) (v : A)
    (j : String) :
    mapGet (mapSet m k v) j = if j = k then some v else mapGet m j := by
  unfold mapSet
  by_cases hmem : m.any (fun p => p.1 = k) = true
  · rw [if_pos hmem]
    exact mapGet_map_overwrite m k v j hmem
  · rw [if_neg hmem]
    exact mapGet_append_single m k v j (by simpa only [Bool.not_eq_true] using hmem)

theorem convertRecA_aux (fuel : Nat) :
    convertToZodSchema envRecA fuel (GqlInputType.inputObject "A") 3 = none ∧
    convertToZodSchema envRecA fuel
      (GqlInputType.nonNull (GqlInputType.inputObject "A")) 2 = none := by
  induction fuel with
  | zero => exact ⟨rfl, rfl⟩
  | succ n ih =>
    refine ⟨?_, ?_⟩
    · simp [convertToZodSchema, envRecA, GqlInputType.isNonNull,
        List.mapM, List.mapM.loop, ih.2]
    · simp [convertToZodSchema, ih.1]

theorem convertRecA_nonNull3 (fuel : Nat) :
    convertToZodSchema envRecA fuel
      (GqlInputType.nonNull (GqlInputType.inputObject "A")) 3 = none := by
  cases fuel with
  | zero => rfl
  | succ n => simp [convertToZodSchema, (convertRecA_aux n).1]

/-- Claim C1: for the legal GraphQL input object `input A { a: A! }`, the mapper
does not terminate: the non-null (and list) branches call
`convertToZodSchema(type.ofType)` without the `maxDepth` argument, restarting
the budget at its default 3, so the conversion of `A` (and of any argument of
type `A!`) is still recursing after `fuel` nested calls, for every `fuel`.
The claimed budget pass-through by wrappers and the termination guarantee both
fail on such cycles. -/
theorem convertToZodSchema_nonterminating_on_wrapper_cycle : ∀ fuel : Nat,
    convertToZodSchema envRecA fuel (GqlInputType.inputObject "A") 3 = none ∧
    argumentToZodSchema envRecA fuel argRecA = none := by
  intro fuel
  refine ⟨(convertRecA_aux fuel).1, ?_⟩
  simp [argumentToZodSchema, argRecA, convertRecA_nonNull3 fuel]

theorem convert_unwrap_inputObject_optional :
    ∀ (t : GqlInputType), t.unwrapNonNull.isInputObjectType = true →
      ∀ (env : InputEnv) (fuel : Nat) (r : ZodSchema),
        convertToZodSchema env fuel t 3 = some r → r.isOptional = true := by
  intro t
  induction t with
  | nonNull inner ih =>
    intro h env fuel r hconv
    cases fuel with
    | zero => exact absurd hconv (by simp [convertToZodSchema])
    | succ n =>
      simp only [convertToZodSchema] at hconv
      norm_num at hconv
      exact ih (by simpa [GqlInputType.unwrapNonNull] using h) env n r hconv
  | list inner ih =>
    intro h
    simp [GqlInputType.unwrapNonNull, GqlInputType.isInputObjectType] at h
  | scalar name =>
    intro h
    simp [GqlInputType.unwrapNonNull, GqlInputType.isInputObjectType] at h
  | inputObject name =>
    intro _ env fuel r hconv
    cases fuel with
    | zero => exact absurd hconv (by simp [convertToZodSchema])
    | succ n =>
      simp only [convertToZodSchema] at hconv
      norm_num at hconv
      rcases hconv with ⟨shape, _, hr⟩
      subst hr
      rfl
  | enum name =>
    intro h
    simp [GqlInputType.unwrapNonNull, GqlInputType.isInputObjectType] at h

/-- Claim C9: for every argument whose type, after stripping non-null wrappers, is
an input object type, the mapped node is itself `.optional()` at its root
(the input object branch returns `z.object(shape).optional()`), even when the
declared type of the argument is non-null. -/
theorem argumentToZodSchema_inputObject_root_optional :
    ∀ (env : InputEnv) (fuel : Nat) (argument : GqlArgument) (r : ZodSchema),
      argument.type.unwrapNonNull.isInputObjectType = true →
      argumentToZodSchema env fuel argument = some r →
      r.isOptional = true := by
  intro env fuel argument r h hconv
  unfold argumentToZodSchema at hconv
  revert hconv
  cases hc : convertToZodSchema env fuel argument.type 3 with
  | none => intro hconv; exact absurd hconv (by simp)
  | some zodField =>
    cases argument.defaultValue with
    | some dv =>
      intro hconv
      simp only [Option.some.injEq] at hconv
      subst hconv
      exact convert_unwrap_inputObject_optional argument.type h env fuel zodField hc
    | none =>
      intro hconv
      simp only [Option.some.injEq] at hconv
      subst hconv
      exact convert_unwrap_inputObject_optional argument.type h env fuel zodField hc

/-- Claim C9 witness: the non-null input-object argument `input: B!` maps to a node
whose root is optional. -/
theorem argumentToZodSchema_inputObject_root_optional_witness :
    argumentToZodSchema envB 5 argB =
      some (ZodSchema.optional
        (ZodSchema.object [("flag", ZodSchema.optional ZodSchema.boolean)])) ∧
    ZodSchema.isOptional
      (ZodSchema.optional
        (ZodSchema.object [("flag", ZodSchema.optional ZodSchema.boolean)])) =
      true := by
  constructor
  · rfl
  · exact argumentToZodSchema_inputObject_root_optional envB 5 argB _ rfl rfl

/-- Claim C5: the scalar branch of `convertToZodSchema` and the scalar table
`namedTypeToZodSchema` of the older variant both realize the scalar table of the spec
(`String→String, Int→Int, Float→Float, Boolean→Boolean, ID→String`,
unrecognized scalars→String), whenever the mapper actually reaches the scalar
branch (nonzero fuel and nonzero remaining depth). -/
theorem scalar_mapping_matches_spec :
    ∀ (env : InputEnv) (name : String) (fuel maxDepth : Nat),
      fuel ≠ 0 → maxDepth ≠ 0 →
      convertToZodSchema env fuel (GqlInputType.scalar name) maxDepth =
        some (specScalarNode name) ∧
      namedTypeToZodSchema name = specScalarNode name := by
  intro env name fuel maxDepth hf hd
  constructor
  · cases fuel with
    | zero => exact absurd rfl hf
    | succ n =>
      simp only [convertToZodSchema, if_neg hd]
      unfold specScalarNode
      split_ifs with h1 h2 h3 h4 h5 <;> simp_all
  · rfl

/-- Claim C5 witness: an unrecognized custom scalar maps to the String node. -/
theorem scalar_mapping_matches_spec_witness :
    convertToZodSchema emptyInputEnv 1 (GqlInputType.scalar "DateTime") 3 =
      some (specScalarNode "DateTime") ∧
    namedTypeToZodSchema "DateTime" = specScalarNode "DateTime" :=
  scalar_mapping_matches_spec emptyInputEnv "DateTime" 1 3
    (by decide) (by decide)

/-- Claim C3: the declared default of `limit: Int = 10` is not attached: the source
computes `zodField.default(argument.defaultValue)` but discards the returned
schema (zod schemas are immutable), so the mapper returns the bare Int node,
not the node wrapped with the default. -/
theorem argumentToZodSchema_discards_declared_default :
    argumentToZodSchema emptyInputEnv 2 argLimit = some ZodSchema.int ∧
    some ZodSchema.int ≠ some (ZodSchema.default ZodSchema.int "10") := by
  constructor
  · rfl
  · simp [ZodSchema.default]

/-- Claim C7: whenever the query text does not parse (the external `parse` throws),
the handler returns the query-syntax error, whatever the network response
would have been — the response argument is not consulted, so no dispatch
happens. -/
theorem queryGraphqlHandler_syntax_error_before_dispatch :
    ∀ (allowMutations : Bool) (e : String) (response : FetchResponse),
      queryGraphqlHandler allowMutations (Except.error e) response =
        HandlerResult.syntaxError e := by
  intro allowMutations e response
  rfl

theorem addTools_nil (env : InputEnv) (fuel : Nat) (config : Config)
    (tools : ToolMap) : addTools env fuel config [] tools = some tools := rfl

theorem addAllTools_nil (env : InputEnv) (fuel : Nat) (tools : ToolMap) :
    addAllTools env fuel [] tools = some tools := rfl

theorem addTools_cons (env : InputEnv) (fuel : Nat) (config : Config)
    (op : Operation) (ops : List Operation) (tools : ToolMap) :
    addTools env fuel config (op :: ops) tools =
      if op.name = "" ∨ config.excludeQueries.contains op.name ∨
          config.excludeMutations.contains op.name then
        addTools env fuel config ops tools
      else
        Option.bind ((operationToTool env fuel op).map
            (fun tool => mapSet tools tool.name tool))
          (fun next => addTools env fuel config ops next) := by
  by_cases h : op.name = "" ∨ config.excludeQueries.contains op.name ∨
      config.excludeMutations.contains op.name
  · rw [if_pos h]
    unfold addTools
    rw [List.foldlM, if_pos h]
    rfl
  · rw [if_neg h]
    unfold addTools
    rw [List.foldlM, if_neg h]
    rfl

theorem addAllTools_cons (env : InputEnv) (fuel : Nat) (op : Operation)
    (ops : List Operation) (tools : ToolMap) :
    addAllTools env fuel (op :: ops) tools =
      Option.bind ((operationToTool env fuel op).map
          (fun tool => mapSet tools tool.name tool))
        (fun next => addAllTools env fuel ops next) := by
  unfold addAllTools
  rw [List.foldlM]
  rfl

/-- Claim C2 counterexample: with `"X"` present as both a query field and a
mutation field, `excludeQueries = ["X"]` and `excludeMutations = []`, the
built registry does NOT contain `mutation-X`: the source drops an operation
when its name appears in either exclusion list, regardless of kind. -/
theorem exclusion_crosses_kinds_counterexample :
    cfgXX.allowMutations = true ∧ cfgXX.excludeQueries = ["X"] ∧
    cfgXX.excludeMutations = [] ∧
    (loadTools 20 cfgXX schemaXX []).bind (fun m => mapGet m "mutation-X") =
      none := by
  exact ⟨rfl, rfl, rfl, rfl⟩

/-- Claim C2 amended: exclusion is name-scoped across kinds, not kind-scoped: an
operation of either kind is dropped exactly when its name is empty or appears
in `excludeQueries` or in `excludeMutations`; consequently the `"X"` example
yields a registry containing neither `query-X` nor `mutation-X`. -/
theorem exclusion_name_scoped_amended :
    (∀ (env : InputEnv) (fuel : Nat) (config : Config)
        (operations : List Operation) (tools : ToolMap),
      addTools env fuel config operations tools =
        addAllTools env fuel
          (operations.filter (fun op =>
            !(decide (op.name = "") || config.excludeQueries.contains op.name ||
              config.excludeMutations.contains op.name))) tools) ∧
    (loadTools 20 cfgXX schemaXX []).bind (fun m => mapGet m "query-X") =
      none ∧
    (loadTools 20 cfgXX schemaXX []).bind (fun m => mapGet m "mutation-X") =
      none := by
  refine ⟨?_, rfl, rfl⟩
  intro env fuel config operations tools
  induction operations generalizing tools with
  | nil => rfl
  | cons op ops ih =>
    rw [addTools_cons, List.filter_cons]
    by_cases hskip : op.name = "" ∨ config.excludeQueries.contains op.name ∨
        config.excludeMutations.contains op.name
    · rw [if_pos hskip]
      have hor : (decide (op.name = "") ||
          config.excludeQueries.contains op.name ||
          config.excludeMutations.contains op.name) = true := by
        rcases hskip with h | h | h
        · have hd : decide (op.name = "") = true := decide_eq_true h
          simp only [hd, Bool.true_or]
        · simp only [h, Bool.or_true, Bool.true_or]
        · simp only [h, Bool.or_true]
      rw [hor, Bool.not_true]
      rw [if_neg (Bool.false_ne_true)]
      exact ih tools
    · rw [if_neg hskip]
      have h1 : ¬ op.name = "" := fun h => hskip (Or.inl h)
      have h2 : config.excludeQueries.contains op.name = false := by
        cases hb : config.excludeQueries.contains op.name
        · rfl
        · exact absurd (Or.inr (Or.inl hb)) hskip
      have h3 : config.excludeMutations.contains op.name = false := by
        cases hb : config.excludeMutations.contains op.name
        · rfl
        · exact absurd (Or.inr (Or.inr hb)) hskip
      have hd : decide (op.name = "") = false := decide_eq_false h1
      have hor : (decide (op.name = "") ||
          config.excludeQueries.contains op.name ||
          config.excludeMutations.contains op.name) = false := by
        rw [hd, h2, h3]
        rfl
      rw [hor]
      rw [if_pos (show (!false) = true from rfl)]
      rw [addAllTools_cons]
      cases operationToTool env fuel op with
      | none => rfl
      | some tool =>
        simp only [Option.map_some', Option.some_bind]
        exact ih _

theorem addTools_or (env : InputEnv) (fuel : Nat) (config : Config)
    (ops : List Operation) :
    ∀ (base f m mF mN : ToolMap),
      addTools env fuel config ops f = some mF →
      addTools env fuel config ops m = some mN →
      (∀ k, mapGet m k = (mapGet f k).or (mapGet base k)) →
      ∀ k, mapGet mN k = (mapGet mF k).or (mapGet base k) := by
  induction ops with
  | nil =>
    intro base f m mF mN h1 h2 hinv k
    rw [addTools_nil] at h1 h2
    cases h1
    cases h2
    exact hinv k
  | cons op ops ih =>
    intro base f m mF mN h1 h2 hinv k
    rw [addTools_cons] at h1 h2
    by_cases hskip : op.name = "" ∨ config.excludeQueries.contains op.name ∨
        config.excludeMutations.contains op.name
    · rw [if_pos hskip] at h1 h2
      exact ih base f m mF mN h1 h2 hinv k
    · rw [if_neg hskip] at h1 h2
      cases hop : operationToTool env fuel op with
      | none =>
        rw [hop] at h1
        exact absurd h1 (by simp)
      | some tool =>
        rw [hop] at h1 h2
        simp only [Option.map_some', Option.some_bind] at h1 h2
        refine ih base (mapSet f tool.name tool) (mapSet m tool.name tool)
          mF mN h1 h2 ?_ k
        intro j
        rw [mapGet_mapSet, mapGet_mapSet]
        by_cases hj : j = tool.name
        · rw [if_pos hj, if_pos hj]
          rfl
        · rw [if_neg hj, if_neg hj]
          exact hinv j

/-- Claim C8 counterexample: reloading does not replace the registry wholesale. A
registry built against a schema with query field `old` and then reloaded
against a schema without it still answers lookups for `query-old`, though a
fresh build against the new schema does not contain it — `loadTools` only
adds into the persistent map and never clears stale entries. -/
theorem loadTools_stale_tool_persists :
    (((loadTools 20 cfgPlain schemaOld []).bind
        (fun m => loadTools 20 cfgPlain schemaNew m)).bind
      (fun m => mapGet m "query-old")).isSome = true ∧
    (loadTools 20 cfgPlain schemaNew []).bind (fun m => mapGet m "query-old") =
      none := by
  exact ⟨rfl, rfl⟩

/-- Claim C8 amended: a reload merges rather than replaces: after `loadTools` runs
over the previous map, a lookup returns the freshly synthesized tool for
every name the new build produces, and falls back to the entry of the previous map
for every other name. (Only when the previous map came from the same schema
and config — the only reachable in-process state, since both are fixed per
handler — does the result coincide with the fresh build.) -/
theorem loadTools_reload_merges :
    ∀ (fuel : Nat) (config : Config) (schema : GraphQLSchema)
      (tools freshMap newMap : ToolMap),
      loadTools fuel config schema [] = some freshMap →
      loadTools fuel config schema tools = some newMap →
      ∀ k, mapGet newMap k = (mapGet freshMap k).or (mapGet tools k) := by
  intro fuel config schema tools freshMap newMap h1 h2 k
  unfold loadTools at h1 h2
  refine addTools_or schema.inputTypes fuel config _ tools [] tools freshMap
    newMap h1 h2 ?_ k
  intro j
  rfl

/-- Claim C8 witness: instantiating the merge characterization at a concrete
previous map and schema. -/
theorem loadTools_reload_merges_witness :
    mapGet [("query-old", toolOld)] "query-old" =
      (mapGet ([] : ToolMap) "query-old").or
        (mapGet [("query-old", toolOld)] "query-old") :=
  loadTools_reload_merges 5 cfgPlain schemaEmpty [("query-old", toolOld)] []
    [("query-old", toolOld)] rfl rfl "query-old"

theorem createOperationDescription_erase_mutations (schema : GraphQLSchema)
    (op : Operation) (h : op.type = OpKind.query) :
    createOperationDescription { schema with mutationFields := [] } op =
      createOperationDescription schema op := by
  unfold createOperationDescription getOperationOutputType
  rw [h]

theorem getOperations_query_erase_mutations (schema : GraphQLSchema) :
    getOperations { schema with mutationFields := [] } [OpKind.query] =
      getOperations schema [OpKind.query] := by
  unfold getOperations
  have hq : ([OpKind.query].contains OpKind.query) = true := by decide
  have hm : ([OpKind.query].contains OpKind.mutation) = false := by decide
  rw [hq, hm]
  simp only [if_true, Bool.false_eq_true, if_false, List.append_nil]
  apply List.map_congr_left
  intro field _
  rw [createOperationDescription_erase_mutations schema
    { name := field.name, type := OpKind.query
      description := field.description, parameters := field.args } rfl]

/-- Claim C4: with `allowMutations = false` the registry build reads only the query
root (erasing every mutation field changes nothing, whatever the exclusion
lists say), and the execution handler rejects any parsed document containing
a mutation-kind operation definition with the mutations-disabled error,
without consulting the network response. -/
theorem mutation_gate_registry_and_handler :
    ∀ (fuel : Nat) (config : Config) (schema : GraphQLSchema) (tools : ToolMap)
      (doc : ParsedDocument) (response : FetchResponse),
      config.allowMutations = false →
      doc.definitions.any AstDefinition.isMutationDef = true →
      loadTools fuel config schema tools =
        loadTools fuel config { schema with mutationFields := [] } tools ∧
      queryGraphqlHandler false (Except.ok doc) response =
        HandlerResult.mutationsDisabled := by
  intro fuel config schema tools doc response hmut hany
  constructor
  · unfold loadTools
    rw [hmut]
    simp only [Bool.false_eq_true, if_false]
    rw [getOperations_query_erase_mutations]
  · simp [queryGraphqlHandler, hany]

/-- Claim C4 witness: the gate at a concrete schema, config, document, response. -/
theorem mutation_gate_registry_and_handler_witness :
    loadTools 5 cfgPlain schemaXX [] =
      loadTools 5 cfgPlain { schemaXX with mutationFields := [] } [] ∧
    queryGraphqlHandler false (Except.ok docMutation) respOk =
      HandlerResult.mutationsDisabled :=
  mutation_gate_registry_and_handler 5 cfgPlain schemaXX [] docMutation respOk
    rfl rfl

/-- Claim C6 counterexample: a dispatched execution with a 2xx status whose body is
not valid JSON (so the `errors` array of the claim is absent) is not classified as
a success — `response.json()` rejects and the handler throws, a fourth
outcome outside the claimed three-way classification. -/
theorem dispatch_thrown_on_non_json_body :
    respBadJson.ok = true ∧ respBadJson.bodyJson = none ∧
    queryGraphqlHandler true (Except.ok { definitions := [] }) respBadJson =
      HandlerResult.thrown := by
  exact ⟨rfl, rfl, rfl⟩

/-- Claim C6 amended: the three-way classification holds for every dispatched
execution whose 2xx response body parses as JSON: non-2xx status gives the
transport error (with status text and body attached), 2xx with a non-empty
`errors` array gives the GraphQL response error carrying the body, and 2xx
with `errors` empty or absent gives success carrying the body verbatim; a
2xx body that fails JSON parsing instead escalates as a thrown error. The
classification is what a permitted call (no mutation when disallowed)
reduces to. -/
theorem dispatch_classification_amended :
    ∀ (response : FetchResponse) (data : GraphQLJsonBody)
      (doc : ParsedDocument),
      (response.ok = false →
        dispatchClassify response =
          HandlerResult.transportError response.statusText response.bodyText) ∧
      (response.ok = true → response.bodyJson = some data →
        dispatchClassify response =
          (if data.hasNonemptyErrors then HandlerResult.graphqlError data
           else HandlerResult.success data)) ∧
      (doc.definitions.any AstDefinition.isMutationDef = false →
        ∀ (allowMutations : Bool),
          queryGraphqlHandler allowMutations (Except.ok doc) response =
            dispatchClassify response) := by
  intro response data doc
  refine ⟨?_, ?_, ?_⟩
  · intro h
    simp [dispatchClassify, h]
  · intro h hj
    simp [dispatchClassify, h, hj]
  · intro h allowMutations
    simp [queryGraphqlHandler, h]

/-- Claim C6 witness: the three classifications at concrete responses, and the
handler reducing to the classifier on a permitted call. -/
theorem dispatch_classification_amended_witness :
    dispatchClassify respHttp500 =
      HandlerResult.transportError respHttp500.statusText
        respHttp500.bodyText ∧
    dispatchClassify respWithErrors =
      (if GraphQLJsonBody.hasNonemptyErrors
          { errors := some ["Cannot query field"], payload := "p" } then
        HandlerResult.graphqlError
          { errors := some ["Cannot query field"], payload := "p" }
       else
        HandlerResult.success
          { errors := some ["Cannot query field"], payload := "p" }) ∧
    queryGraphqlHandler true (Except.ok { definitions := [] })
        respWithErrors =
      dispatchClassify respWithErrors := by
  refine ⟨?_, ?_, ?_⟩
  · exact (dispatch_classification_amended respHttp500
      { errors := none, payload := "" } { definitions := [] }).1 rfl
  · exact (dispatch_classification_amended respWithErrors
      { errors := some ["Cannot query field"], payload := "p" }
      { definitions := [] }).2.1 rfl rfl
  · exact (dispatch_classification_amended respWithErrors
      { errors := none, payload := "" } { definitions := [] }).2.2 rfl true

/-- Claim C10: a successful schema load by introspection returns the reconstructed
schema together with a file system in which `schema.graphql` has been written
(created or overwritten) with the printed SDL of the schema, and nothing else:
the new file system is exactly the old one with that one write. Loading from
a local file returns the file system unchanged. -/
theorem schema_source_file_effects :
    ∀ {D : Type} (buildClientSchema : D → GraphQLSchema)
      (printSchema : GraphQLSchema → String)
      (response : IntrospectionResponse D) (fs : FileSystem)
      (schemaObj : GraphQLSchema) (fs' : FileSystem)
      (buildSchema : String → GraphQLSchema) (path : String)
      (fs₀ : FileSystem) (s : GraphQLSchema) (fs₁ : FileSystem),
      (loadSchemaFromIntrospection buildClientSchema printSchema response fs =
          Except.ok (schemaObj, fs') →
        fs' = writeFile fs "schema.graphql" (printSchema schemaObj) ∧
        readFile fs' "schema.graphql" = some (printSchema schemaObj)) ∧
      (loadSchemaFromFile buildSchema path fs₀ = Except.ok (s, fs₁) →
        fs₁ = fs₀) := by
  intro D buildClientSchema printSchema response fs schemaObj fs' buildSchema
    path fs₀ s fs₁
  constructor
  · intro h
    unfold loadSchemaFromIntrospection at h
    rcases response with ⟨ok, statusText, errors, dataSchema⟩
    cases ok with
    | false => simp at h
    | true =>
      cases errors with
      | some es => simp at h
      | none =>
        cases dataSchema with
        | none => simp at h
        | some introspection =>
          simp only [Bool.not_true, Bool.false_eq_true, if_false,
            Option.isSome_none, Except.ok.injEq, Prod.mk.injEq] at h
          obtain ⟨hs, hfs⟩ := h
          subst hs
          subst hfs
          constructor
          · rfl
          · unfold readFile writeFile
            rw [mapGet_mapSet]
            rw [if_pos rfl]
  · intro h
    unfold loadSchemaFromFile at h
    cases hr : readFile fs₀ path with
    | none => rw [hr] at h; exact absurd h (by simp)
    | some data =>
      rw [hr] at h
      simp only [Except.ok.injEq, Prod.mk.injEq] at h
      exact h.2.symm

/-- Claim C10 witness: a successful introspection load against a file system that
already contains `schema.graphql` overwrites it; a file load leaves the file
system untouched. -/
theorem schema_source_file_effects_witness :
    ([("schema.graphql", "type Query")] =
        writeFile [("schema.graphql", "old")] "schema.graphql"
          (introPrint0 schemaEmpty) ∧
      readFile [("schema.graphql", "type Query")] "schema.graphql" =
        some (introPrint0 schemaEmpty)) ∧
    ([("other.txt", "x")] : FileSystem) = [("other.txt", "x")] := by
  have h := @schema_source_file_effects Unit introBuild0 introPrint0
    introResp0 [("schema.graphql", "old")] schemaEmpty
    [("schema.graphql", "type Query")] (fun _ => schemaEmpty) "other.txt"
    [("other.txt", "x")] schemaEmpty [("other.txt", "x")]
  exact ⟨h.1 rfl, h.2 rfl⟩
